import Mathlib

/-!
Shallow embedding of `src/project_loader.py` (napmn/project-loader).

The script locates a project directory (direct listing of a configured path,
or fuzzy name search over `default_projects_paths` walked with `os.walk`),
optionally activates a detected dependency manager, and spawns a terminal
running the configured custom commands followed by the editor command.

Modelling conventions:
* the JSON configuration dictionary becomes the `Config` structure (the
  `config.get(key, False)` defaults of the Python code are resolved into the
  `Bool` fields);
* filesystem state is passed explicitly: a directory listing is a
  `List String`, a directory tree seen by `os.walk` is an `FsTree`;
* interactive prompts are externalized as parameters: the value the prompt
  collaborator returned (`Option String`, `PromptAnswer`), with `none` /
  `PromptAnswer.cancelled` standing for `inquirer` returning `None` or a
  `KeyboardInterrupt`;
* `exit(n)` and an uncaught `KeyError` become explicit `RunError` values;
* Python strings are Lean `String`s, `os.path.split` / `os.path.join` are
  translated from `posixpath.split` / `posixpath.join`.
-/

namespace ProjectLoader

/-- Exceptional terminations of the script: `exitWith c` models a call to
`exit(c)`, and `keyError k` models an uncaught Python `KeyError` (a crash). -/
inductive RunError where
  | exitWith (code : Nat)
  | keyError (key : String)
deriving DecidableEq, Repr

/-- One entry of `config['dependency_managers']` (keys `name`, `file`,
`activation`, `command`).  `activation` is `Option String` because the JSON
value may be `null` (Python `None`); both `None` and `""` are falsy in the
`if manager['activation']:` test of the source. -/
structure Manager where
  name : String
  file : String
  activation : Option String
  command : String
deriving DecidableEq, Repr

/-- The configuration dictionary, restricted to the keys the modelled code
reads.  `automatically_run_commands_in_env` and `ask_for_env_activation` are
read with `config.get(key, False)` in the source, so a missing key is already
folded into the `Bool` value here. -/
structure Config where
  custom_commands : List String
  editor : String
  dependency_managers : List Manager
  automatically_run_commands_in_env : Bool
  ask_for_env_activation : Bool
  exclude_dirs : List String
  exclude_prefixes : List String
deriving DecidableEq, Repr

/-- Python truthiness of an optional string: `None` and `""` are falsy. -/
def py_truthy : Option String → Bool
  | none => false
  | some s => !(s == "")

/-- `posixpath.split`: split a path at the final slash; the head keeps no
trailing slash unless it is empty or consists only of slashes. -/
def os_path_split (p : String) : String × String :=
  let rev := p.data.reverse
  let tail := (rev.takeWhile (fun c => c != '/')).reverse
  let head := (rev.dropWhile (fun c => c != '/')).reverse
  let head :=
    if head.isEmpty || head.all (fun c => c == '/') then head
    else (head.reverse.dropWhile (fun c => c == '/')).reverse
  (String.mk head, String.mk tail)

/-- Python `str.startswith` with a single string argument, as a prefix test
on the character lists. -/
def str_startsWith (s pre : String) : Bool := pre.data.isPrefixOf s.data

/-- Python `str.endswith` with a single string argument, as a suffix test on
the character lists. -/
def str_endsWith (s suf : String) : Bool := suf.data.isSuffixOf s.data

/-- `posixpath.join` for two components, as used by the script. -/
def os_path_join (path b : String) : String :=
  if str_startsWith b "/" then b
  else if path = "" || str_endsWith path "/" then path ++ b
  else path ++ "/" ++ b

/-- The predicate of the list comprehension in `filter_directories`
(line 255-258): keep `d` when `d not in config['exclude_dirs']` and
`d.startswith(tuple(config['exclude_prefixes'])) is False`.  An empty prefix
tuple matches nothing, exactly as `str.startswith(())` is `False`. -/
def should_keep (config : Config) (d : String) : Bool :=
  !config.exclude_dirs.contains d
    && !config.exclude_prefixes.any (fun p => str_startsWith d p)

/-- `filter_directories(directories, config)` (line 250-258). -/
def filter_directories (directories : List String) (config : Config) :
    List String :=
  directories.filter (fun d => should_keep config d)

/-- `commands_to_execute` built in `open_project_terminal` (line 129):
the configured custom commands followed by `f'{config["editor"]} .'`. -/
def commands_to_execute (config : Config) : List String :=
  config.custom_commands ++ [config.editor ++ " ."]

/-- `add_env_to_custom_commands(manager, custom_commands)` (line 195-208):
a truthy `manager['activation']` is prepended as one command, otherwise each
custom command is prefixed with `manager['command'] + ' '`. -/
def add_env_to_custom_commands (manager : Manager)
    (custom_commands : List String) : List String :=
  if py_truthy manager.activation then
    manager.activation.toList ++ custom_commands
  else
    custom_commands.map (fun command => manager.command ++ " " ++ command)

/-- The `for manager_info in config['dependency_managers']: ... break / else
return None` loop of `check_dependency_manager` (line 163-168): first manager
whose `file` is in the directory listing. -/
def find_manager : List Manager → List String → Option Manager
  | [], _ => none
  | m :: rest, dir_content =>
    if m.file ∈ dir_content then some m else find_manager rest dir_content

/-- What the `inquirer` activation prompt produced: `cancelled` models
`inquirer.prompt` returning `None` (the code then calls `exit(0)`), `yes`
models the answer `'Yes please'`, `no` any other answer. -/
inductive PromptAnswer where
  | yes
  | no
  | cancelled
deriving DecidableEq, Repr

/-- Result of `check_dependency_manager`: `exitCode = some c` when the call
terminated the process via `exit(c)`; `config` is the configuration
dictionary after the call (the source mutates `config['custom_commands']`
in place); `prompted` records whether the `inquirer` activation prompt was
shown. -/
structure CheckOutcome where
  exitCode : Option Nat
  config : Config
  prompted : Bool
deriving DecidableEq, Repr

/-- `check_dependency_manager(project_path, config)` (line 145-192), with the
directory listing `os.listdir(project_path)` and the prompt answer passed
explicitly.  When a manager is detected: if
`automatically_run_commands_in_env` is set the commands are rewritten without
prompting; otherwise, if `ask_for_env_activation` is set, the user is
prompted (`None` answer means `exit(0)`, `'Yes please'` rewrites the
commands, any other answer leaves them unchanged). -/
def check_dependency_manager (dir_content : List String) (config : Config)
    (answer : PromptAnswer) : CheckOutcome :=
  match find_manager config.dependency_managers dir_content with
  | none => ⟨none, config, false⟩
  | some manager =>
    if config.automatically_run_commands_in_env then
      ⟨none,
        { config with
            custom_commands :=
              add_env_to_custom_commands manager config.custom_commands },
        false⟩
    else if config.ask_for_env_activation then
      match answer with
      | PromptAnswer.cancelled => ⟨some 0, config, true⟩
      | PromptAnswer.yes =>
        ⟨none,
          { config with
              custom_commands :=
                add_env_to_custom_commands manager config.custom_commands },
          true⟩
      | PromptAnswer.no => ⟨none, config, true⟩
    else ⟨none, config, false⟩

/-- `ask_for_subproject_from_choices(choices)` (line 211-223): `inquirer`
returning `None` makes the script call `exit(0)`, otherwise the selected
project is returned. -/
def ask_for_subproject_from_choices (choices : List String)
    (answers : Option String) : Except RunError String :=
  match answers with
  | none => Except.error (RunError.exitWith 0)
  | some project => Except.ok project

/-- A Python `dict` as an insertion-ordered association list: assigning to an
existing key overwrites its value in place, a new key is appended. -/
def pyDictInsert (d : List (String × String)) (kv : String × String) :
    List (String × String) :=
  if d.any (fun p => p.1 == kv.1) then
    d.map (fun p => if p.1 == kv.1 then (p.1, kv.2) else p)
  else d ++ [kv]

/-- The dict comprehension `{project: path for path, project in parts}`
applied to an already-swapped pair list: fold the assignments in order. -/
def pyDictOf (pairs : List (String × String)) : List (String × String) :=
  pairs.foldl pyDictInsert []

/-- Python `d[k]` as a lookup returning `none` for a missing key. -/
def pyDictGet (d : List (String × String)) (k : String) : Option String :=
  (d.find? (fun p => p.1 == k)).map (fun p => p.2)

/-- The resolution part of `find_project_by_name(config)` (line 285-313),
with the walked directory list and the prompt outcome passed explicitly.
`prompt_result = none` models a `KeyboardInterrupt` (the source prints
`Cancelled by user` and calls `exit(0)`).  Otherwise the name-to-path dict is
built exactly as in the source (`os.path.split` each directory, dict
comprehension keyed by leaf name) and `projects_paths_dict[project]` is
subscripted — an absent key is an uncaught `KeyError`. -/
def find_project_by_name (possible_directories : List String)
    (prompt_result : Option String) : Except RunError String :=
  match prompt_result with
  | none => Except.error (RunError.exitWith 0)
  | some project =>
    match pyDictGet
        (pyDictOf ((possible_directories.map os_path_split).map
          (fun pt => (pt.2, pt.1)))) project with
    | none => Except.error (RunError.keyError project)
    | some path => Except.ok (os_path_join path project)

/-- A directory tree as seen by the `os.walk` call of
`get_possible_project_directories` (line 276-283): a directory has a name,
real subdirectories, and symlink entries to directories, each a
`(entry name, target path)` pair.  `os.walk` lists symlink names among
`dirs`, but with its default `followlinks=False` it never descends into
them — the target path plays no role in the traversal, so cyclic targets are
representable and harmless. -/
inductive FsTree where
  | node (name : String) (subdirs : List FsTree)
      (symlinks : List (String × String))
deriving Repr

/-- Name of a directory node. -/
def FsTree.name : FsTree → String
  | FsTree.node n _ _ => n

mutual

/-- Number of real directories in a tree. -/
def FsTree.size : FsTree → Nat
  | FsTree.node _ subdirs _ => 1 + sizeForest subdirs

/-- Number of real directories in a forest. -/
def sizeForest : List FsTree → Nat
  | [] => 0
  | c :: rest => FsTree.size c + sizeForest rest

end

mutual

/-- The `os.walk(projects_path)` loop body of
`get_possible_project_directories` (line 278-283): yield the current `root`,
prune `dirs` in place with `filter_directories` (the listed `dirs` are the
names of real subdirectories and of symlinks to directories), and continue
into the kept real subdirectories (symlinks are never followed:
`followlinks=False`). -/
def walkVisit (config : Config) (root : String) : FsTree → List String
  | FsTree.node _ subdirs symlinks =>
    root ::
      walkChildren config root
        (filter_directories
          (subdirs.map FsTree.name ++ symlinks.map Prod.fst) config)
        subdirs

/-- Walk of the subdirectory list of one visited directory: descend into
`c` exactly when its name survived the in-place pruning of `dirs`. -/
def walkChildren (config : Config) (root : String) (kept : List String) :
    List FsTree → List String
  | [] => []
  | c :: rest =>
    (if c.name ∈ kept then walkVisit config (os_path_join root c.name) c
     else [])
      ++ walkChildren config root kept rest

end

/-- `get_possible_project_directories(config)` (line 276-283): concatenate
the walks of all configured root paths.  The filesystem is passed explicitly
as the list of `(path, tree)` pairs the entries of
`config['default_projects_paths']` resolve to. -/
def get_possible_project_directories (config : Config) :
    List (String × FsTree) → List String
  | [] => []
  | r :: rest =>
    walkVisit config r.1 r.2 ++ get_possible_project_directories config rest

mutual

/-- All real-directory paths of a tree, without any pruning: the reference
list the pruned walk is compared against. -/
def allRealPaths (root : String) : FsTree → List String
  | FsTree.node _ subdirs _ => root :: allRealChildren root subdirs

/-- All real-directory paths of a forest, without any pruning. -/
def allRealChildren (root : String) : List FsTree → List String
  | [] => []
  | c :: rest =>
    allRealPaths (os_path_join root c.name) c ++ allRealChildren root rest

end

/-- Concrete managers and configurations used by witnesses and
counterexamples. -/
def poetry_manager : Manager :=
  ⟨"poetry", "pyproject.toml", some "poetry shell", "poetry run"⟩

/-- A manager with no standalone activation command. -/
def docker_manager : Manager := ⟨"docker", "Dockerfile", none, "docker exec x"⟩

/-- Config with both activation flags set and a detectable poetry manager. -/
def demo_config : Config :=
  ⟨["pip freeze"], "vim", [poetry_manager], true, true, [], []⟩

/-- Config that asks before activation (poetry detected). -/
def ask_config : Config :=
  ⟨["pip freeze"], "vim", [poetry_manager], false, true, [], []⟩

/-- Config that asks before activation (docker detected). -/
def docker_config : Config :=
  ⟨["ls"], "vim", [docker_manager], false, true, [], []⟩

/-- Config excluding the directory name `node_modules`. -/
def exclude_config : Config :=
  ⟨[], "vim", [], false, false, ["node_modules"], []⟩

/-- A tree with a symlink whose target is its own grandparent — a symlink
cycle on the real filesystem. -/
def cyclic_tree : FsTree :=
  FsTree.node "a"
    [FsTree.node "b" [] [("up", "/r/a")]]
    []

/-- A small tree for the indexing witnesses: one project directory and one
excluded `node_modules` directory containing a nested package. -/
def demo_tree : FsTree :=
  FsTree.node "home"
    [FsTree.node "proj" [] [],
     FsTree.node "node_modules" [FsTree.node "pkg" [] []] []]
    []

/-! ### Semantics of the Python dict model -/

/-- Appending a fresh binding: the lookup falls through to it. -/
theorem pyDictGet_append_single (d : List (String × String))
    (kv : String × String) (k : String) :
    pyDictGet (d ++ [kv]) k =
      (pyDictGet d k).or (if kv.1 == k then some kv.2 else none) := by
  unfold pyDictGet
  rw [List.find?_append]
  cases h : d.find? (fun p => p.1 == k) with
  | none => by_cases hk : kv.1 == k <;> simp [List.find?, hk]
  | some q => simp

/-- Overwriting the value at `key` does not change lookups at other keys. -/
theorem pyDictGet_overwrite_ne (d : List (String × String)) (key v k : String)
    (hk : k ≠ key) :
    pyDictGet (d.map (fun p => if p.1 == key then (p.1, v) else p)) k =
      pyDictGet d k := by
  induction d with
  | nil => rfl
  | cons p rest ih =>
    by_cases h1 : p.1 = key
    · have hpk : (p.1 == k) = false := by
        simp only [beq_eq_false_iff_ne, ne_eq, h1]
        exact fun h => hk h.symm
      have e1 : (p.1 == key) = true := by simp [h1]
      simp only [pyDictGet, List.map_cons, e1, if_true]
      rw [List.find?_cons_of_neg _ (by simp [hpk]),
        List.find?_cons_of_neg _ (by simp [hpk])]
      exact ih
    · have e1 : (p.1 == key) = false := by simp [h1]
      simp only [pyDictGet, List.map_cons, e1, if_false]
      by_cases hpk : p.1 = k
      · rw [List.find?_cons_of_pos _ (by simp [hpk]),
          List.find?_cons_of_pos _ (by simp [hpk])]
        simp
      · rw [List.find?_cons_of_neg _ (by simp [hpk]),
          List.find?_cons_of_neg _ (by simp [hpk])]
        exact ih

/-- Overwriting the value at a present `key` makes lookups at `key` return
the new value. -/
theorem pyDictGet_overwrite_hit (d : List (String × String)) (key v : String)
    (h : d.any (fun p => p.1 == key) = true) :
    pyDictGet (d.map (fun p => if p.1 == key then (p.1, v) else p)) key =
      some v := by
  induction d with
  | nil => simp at h
  | cons p rest ih =>
    by_cases h1 : p.1 = key
    · have e1 : (p.1 == key) = true := by simp [h1]
      simp only [pyDictGet, List.map_cons, e1, if_true]
      rw [List.find?_cons_of_pos _ (by simp [e1])]
      rfl
    · have e1 : (p.1 == key) = false := by simp [h1]
      simp only [List.any_cons, Bool.or_eq_true] at h
      have h2 : rest.any (fun p => p.1 == key) = true := by
        rcases h with h | h
        · exact absurd (by simpa using h) h1
        · exact h
      simp only [pyDictGet, List.map_cons, e1, if_false]
      rw [List.find?_cons_of_neg _ (by simp [e1])]
      exact ih h2

/-- One Python dict assignment, observed through lookups: the assigned key
now maps to the new value, all other keys are untouched. -/
theorem pyDictGet_insert (d : List (String × String)) (kv : String × String)
    (k : String) :
    pyDictGet (pyDictInsert d kv) k =
      if k = kv.1 then some kv.2 else pyDictGet d k := by
  unfold pyDictInsert
  by_cases hany : d.any (fun p => p.1 == kv.1)
  · rw [if_pos hany]
    by_cases hk : k = kv.1
    · rw [if_pos hk, hk]
      exact pyDictGet_overwrite_hit d kv.1 kv.2 hany
    · rw [if_neg hk]
      exact pyDictGet_overwrite_ne d kv.1 kv.2 k hk
  · rw [if_neg hany, pyDictGet_append_single]
    by_cases hk : k = kv.1
    · rw [if_pos hk]
      have hnone : pyDictGet d k = none := by
        unfold pyDictGet
        rw [List.find?_eq_none.mpr]
        · rfl
        · intro x hx hpx
          exact hany (List.any_eq_true.mpr ⟨x, hx, by simp_all⟩)
      rw [hnone, if_pos (by simp [hk])]
      rfl
    · have hk' : (kv.1 == k) = false := by
        simp only [beq_eq_false_iff_ne, ne_eq]
        exact fun h => hk h.symm
      rw [if_neg hk, hk', if_neg (by simp), Option.or_none]

/-- Lookup in a dict built by the comprehension: the value of the LAST pair
(in iteration order) carrying the key — Python dict comprehensions are
last-write-wins. -/
theorem pyDictOf_get_aux (pairs : List (String × String)) (k : String) :
    ∀ acc : List (String × String),
      pyDictGet (pairs.foldl pyDictInsert acc) k =
        match pairs.reverse.find? (fun p => p.1 == k) with
        | some q => some q.2
        | none => pyDictGet acc k := by
  induction pairs with
  | nil => intro acc; rfl
  | cons kv rest ih =>
    intro acc
    rw [List.foldl_cons, ih (pyDictInsert acc kv), List.reverse_cons,
      List.find?_append]
    cases h : rest.reverse.find? (fun p => p.1 == k) with
    | some q => simp
    | none =>
      simp only [Option.none_or]
      rw [pyDictGet_insert]
      by_cases hk : k = kv.1
      · rw [if_pos hk, List.find?_cons_of_pos _ (by simp [hk])]
      · have hk' : (kv.1 == k) = false := by
          simp only [beq_eq_false_iff_ne, ne_eq]
          exact fun h => hk h.symm
        rw [if_neg hk]
        simp [List.find?_cons, hk']

/-- `pyDictOf` lookup, closed form: last-write-wins over the pair list. -/
theorem pyDictOf_get (pairs : List (String × String)) (k : String) :
    pyDictGet (pyDictOf pairs) k =
      (pairs.reverse.find? (fun p => p.1 == k)).map (fun p => p.2) := by
  rw [pyDictOf, pyDictOf_get_aux pairs k []]
  cases h : pairs.reverse.find? (fun p => p.1 == k) <;> rfl

/-- The name-to-path dictionary built in `find_project_by_name`, observed
through lookups: the parent path of the last directory (in traversal order)
whose leaf name is the looked-up name. -/
theorem find_project_lookup_eq (dirs : List String) (project : String) :
    pyDictGet
        (pyDictOf ((dirs.map os_path_split).map (fun pt => (pt.2, pt.1))))
        project
      = (dirs.reverse.find? (fun x => (os_path_split x).2 == project)).map
          (fun x => (os_path_split x).1) := by
  rw [pyDictOf_get]
  rw [show ((dirs.map os_path_split).map (fun pt => (pt.2, pt.1))).reverse
      = (dirs.reverse.map os_path_split).map (fun pt => (pt.2, pt.1)) by
    simp [List.map_reverse]]
  rw [List.find?_map, List.find?_map, Option.map_map, Option.map_map]
  rfl

/-- C1 (amended): when two discovered directories share a leaf name, the
name-to-path index built by `find_project_by_name` keeps the LAST one in
traversal order (Python dict comprehensions are last-write-wins), so
resolving such a leaf name deterministically returns the path assembled from
the parent of the last-encountered matching directory. -/
theorem resolve_last_wins : ∀ (dirs : List String) (project d : String),
    dirs.reverse.find? (fun x => (os_path_split x).2 == project) = some d →
    find_project_by_name dirs (some project) =
      Except.ok (os_path_join (os_path_split d).1 project) := by
  intro dirs project d h
  simp only [find_project_by_name]
  rw [find_project_lookup_eq, h]
  rfl

/-- Witness for C1: with traversal order `["/a/p", "/b/p"]`, the name `p`
resolves to `/b/p`, built from the parent of the last occurrence. -/
theorem resolve_last_wins_witness :
    find_project_by_name ["/a/p", "/b/p"] (some "p") = Except.ok "/b/p" :=
  (resolve_last_wins ["/a/p", "/b/p"] "p" "/b/p" (by decide)).trans rfl

/-- Counterexample to C1 as stated: with two discovered directories `/a/p`
and `/b/p` sharing the leaf name `p`, resolution returns `/b/p` (the LAST
encountered), not the path of the first-encountered directory `/a/p`. -/
theorem resolve_first_wins_cex :
    find_project_by_name ["/a/p", "/b/p"] (some "p") = Except.ok "/b/p"
      ∧ find_project_by_name ["/a/p", "/b/p"] (some "p")
          ≠ Except.ok "/a/p" := by
  refine ⟨rfl, fun h => ?_⟩
  rw [show find_project_by_name ["/a/p", "/b/p"] (some "p")
      = Except.ok "/b/p" from rfl] at h
  exact absurd (Except.ok.inj h) (by decide)

/-- C4 (amended): for a name absent from the project index, the lookup
`projects_paths_dict[project]` raises an uncaught `KeyError` — the process
crashes; no `NotFound` value or user-facing message is produced. -/
theorem resolve_missing_keyerror : ∀ (dirs : List String) (project : String),
    (∀ x ∈ dirs, (os_path_split x).2 ≠ project) →
    find_project_by_name dirs (some project) =
      Except.error (RunError.keyError project) := by
  intro dirs project h
  simp only [find_project_by_name]
  rw [find_project_lookup_eq, List.find?_eq_none.mpr]
  · rfl
  · intro x hx
    simp only [beq_iff_eq]
    exact h x (List.mem_reverse.mp hx)

/-- Witness for C4: the name `y` is absent from the index built over
`["/h/x"]`, and resolving it is an uncaught `KeyError`. -/
theorem resolve_missing_keyerror_witness :
    find_project_by_name ["/h/x"] (some "y") =
      Except.error (RunError.keyError "y") :=
  resolve_missing_keyerror ["/h/x"] "y" (by decide)

/-- Counterexample to C4 as stated: resolving the absent name `beta` does
not yield a handled `NotFound` outcome — it raises a `KeyError` (an
unhandled exception that crashes the process). -/
theorem resolve_missing_raises_cex :
    find_project_by_name ["/home/alpha"] (some "beta") =
      Except.error (RunError.keyError "beta") := rfl

/-! ### Dependency-manager detection and command composition -/

/-- The detection loop returns `none` when no signature matches. -/
theorem find_manager_none (content : List String) (ms : List Manager)
    (h : ∀ m' ∈ ms, m'.file ∉ content) : find_manager ms content = none := by
  induction ms with
  | nil => rfl
  | cons m rest ih =>
    rw [find_manager, if_neg (h m (List.mem_cons_self m rest))]
    exact ih (fun m' hm' => h m' (List.mem_cons_of_mem m hm'))

/-- The detection loop returns the first matching signature. -/
theorem find_manager_first (content : List String) (pre suf : List Manager)
    (m : Manager) (hpre : ∀ m' ∈ pre, m'.file ∉ content)
    (hm : m.file ∈ content) :
    find_manager (pre ++ m :: suf) content = some m := by
  induction pre with
  | nil => simp [find_manager, hm]
  | cons p rest ih =>
    rw [List.cons_append, find_manager,
      if_neg (hpre p (List.mem_cons_self p rest))]
    exact ih (fun m' h' => hpre m' (List.mem_cons_of_mem p h'))

/-- C9 (confirmed): detection iterates the configured signature list in
order and selects the first manager whose marker file or directory is in the
immediate directory listing; when no signature matches it returns `none`,
raising no error. -/
theorem detect_first_match : ∀ (content : List String)
    (pre suf : List Manager) (m : Manager),
    ((∀ m' ∈ pre, m'.file ∉ content) → m.file ∈ content →
      find_manager (pre ++ m :: suf) content = some m)
    ∧ ((∀ m' ∈ pre, m'.file ∉ content) → find_manager pre content = none) :=
  fun content pre suf m =>
    ⟨fun h1 h2 => find_manager_first content pre suf m h1 h2,
     fun h => find_manager_none content pre h⟩

/-- Witness for C9: with signatures `[poetry, docker]` and a directory
containing only `Dockerfile`, detection skips poetry and selects docker;
with no marker present it returns `none`. -/
theorem detect_first_match_witness :
    find_manager [poetry_manager, docker_manager] ["Dockerfile", "setup.py"]
        = some docker_manager
    ∧ find_manager [poetry_manager, docker_manager] ["README.md"] = none := by
  constructor
  · exact (detect_first_match ["Dockerfile", "setup.py"] [poetry_manager] []
      docker_manager).1 (by decide) (by decide)
  · exact (detect_first_match ["README.md"] [poetry_manager, docker_manager]
      [] docker_manager).2 (by decide)

/-- C10 (confirmed): with both `automatically_run_commands_in_env` and
`ask_for_env_activation` enabled and a manager detected, the commands are
rewritten automatically and the activation prompt is never shown (the
outcome is independent of any prompt answer): the automatic setting takes
strict precedence. -/
theorem auto_precedence_over_ask : ∀ (content : List String) (cfg : Config)
    (ans : PromptAnswer) (m : Manager),
    find_manager cfg.dependency_managers content = some m →
    cfg.automatically_run_commands_in_env = true →
    cfg.ask_for_env_activation = true →
    check_dependency_manager content cfg ans =
      ⟨none,
        { cfg with
            custom_commands :=
              add_env_to_custom_commands m cfg.custom_commands },
        false⟩ := by
  intro content cfg ans m hf hauto hask
  simp only [check_dependency_manager, hf, hauto, if_true]

/-- Witness for C10: `demo_config` has both flags set; even a cancelled
prompt answer is irrelevant — no prompt is shown (`prompted = false`), no
exit happens, and the commands are rewritten. -/
theorem auto_precedence_over_ask_witness :
    check_dependency_manager ["pyproject.toml"] demo_config
        PromptAnswer.cancelled =
      ⟨none,
        ⟨["poetry shell", "pip freeze"], "vim", [poetry_manager], true, true,
          [], []⟩,
        false⟩ := by
  rw [auto_precedence_over_ask ["pyproject.toml"] demo_config
    PromptAnswer.cancelled poetry_manager rfl rfl rfl]
  rfl

/-- C7 (confirmed): with a detected manager carrying a truthy standalone
activation command and an affirmative user decision, the executed plan is
the activation command, then the base commands unchanged and in order, then
the editor invocation. -/
theorem activation_mode_plan : ∀ (content : List String) (cfg : Config)
    (m : Manager) (a : String),
    find_manager cfg.dependency_managers content = some m →
    cfg.automatically_run_commands_in_env = false →
    cfg.ask_for_env_activation = true →
    m.activation = some a → a ≠ "" →
    commands_to_execute
        (check_dependency_manager content cfg PromptAnswer.yes).config
      = [a] ++ cfg.custom_commands ++ [cfg.editor ++ " ."] := by
  intro content cfg m a hf hauto hask hact ha
  have haeq : (a == "") = false := by simp [ha]
  simp [check_dependency_manager, hf, hauto, hask, commands_to_execute,
    add_env_to_custom_commands, py_truthy, hact, haeq]

/-- Witness for C7: poetry (`activation = "poetry shell"`) with base
commands `["pip freeze"]` and editor `vim` yields
`["poetry shell", "pip freeze", "vim ."]`. -/
theorem activation_mode_plan_witness :
    commands_to_execute
        (check_dependency_manager ["pyproject.toml"] ask_config
          PromptAnswer.yes).config
      = ["poetry shell", "pip freeze", "vim ."] := by
  rw [activation_mode_plan ["pyproject.toml"] ask_config poetry_manager
    "poetry shell" rfl rfl rfl rfl (by decide)]
  rfl

/-- C8 (confirmed): with a detected manager whose activation is falsy (no
standalone activation command) and an affirmative user decision, every base
command is individually prefixed with the manager invocation command and a
space, in order, and the final editor invocation is never prefixed. -/
theorem prefix_mode_plan : ∀ (content : List String) (cfg : Config)
    (m : Manager),
    find_manager cfg.dependency_managers content = some m →
    cfg.automatically_run_commands_in_env = false →
    cfg.ask_for_env_activation = true →
    py_truthy m.activation = false →
    commands_to_execute
        (check_dependency_manager content cfg PromptAnswer.yes).config
      = cfg.custom_commands.map (fun command => m.command ++ " " ++ command)
          ++ [cfg.editor ++ " ."] := by
  intro content cfg m hf hauto hask hact
  simp [check_dependency_manager, hf, hauto, hask, commands_to_execute,
    add_env_to_custom_commands, hact]

/-- Witness for C8: docker (`invocation prefix "docker exec x"`, no
activation) with base commands `["ls"]` and editor `vim` yields
`["docker exec x ls", "vim ."]` — the editor command is not prefixed. -/
theorem prefix_mode_plan_witness :
    commands_to_execute
        (check_dependency_manager ["Dockerfile"] docker_config
          PromptAnswer.yes).config
      = ["docker exec x ls", "vim ."] := by
  rw [prefix_mode_plan ["Dockerfile"] docker_config docker_manager rfl rfl
    rfl rfl]
  rfl

/-- C2 (amended): `check_dependency_manager` is deterministic (it is a
function of the listing, configuration and answer), but it writes the
composed list back into the configuration: after a run with a detected
manager and automatic activation, `config['custom_commands']` holds the
composed list rather than the original base commands, and invoking the step
again on the carried-over configuration composes again, prepending the
activation command a second time. -/
theorem compose_mutates_and_compounds : ∀ (content : List String)
    (cfg : Config) (ans : PromptAnswer) (m : Manager) (a : String),
    find_manager cfg.dependency_managers content = some m →
    cfg.automatically_run_commands_in_env = true →
    m.activation = some a → a ≠ "" →
    (check_dependency_manager content cfg ans).config.custom_commands
        = a :: cfg.custom_commands
    ∧ (check_dependency_manager content
          ((check_dependency_manager content cfg ans).config)
          ans).config.custom_commands
        = a :: a :: cfg.custom_commands := by
  intro content cfg ans m a hf hauto hact ha
  have haeq : (a == "") = false := by simp [ha]
  have hcfg1 : (check_dependency_manager content cfg ans).config =
      { cfg with
          custom_commands :=
            add_env_to_custom_commands m cfg.custom_commands } := by
    simp only [check_dependency_manager, hf, hauto, if_true]
  have hadd : ∀ l : List String,
      add_env_to_custom_commands m l = a :: l := by
    intro l
    simp [add_env_to_custom_commands, py_truthy, hact, haeq]
  constructor
  · rw [hcfg1, hadd]
  · rw [hcfg1]
    simp only [check_dependency_manager, hf, hauto, if_true]
    rw [hadd, hadd]

/-- Witness for C2 (amended): concrete double invocation on the
carried-over configuration, compounding the activation command. -/
theorem compose_mutates_and_compounds_witness :
    (check_dependency_manager ["pyproject.toml"] demo_config
        PromptAnswer.yes).config.custom_commands
      = ["poetry shell", "pip freeze"]
    ∧ (check_dependency_manager ["pyproject.toml"]
        ((check_dependency_manager ["pyproject.toml"] demo_config
          PromptAnswer.yes).config)
        PromptAnswer.yes).config.custom_commands
      = ["poetry shell", "poetry shell", "pip freeze"] :=
  compose_mutates_and_compounds ["pyproject.toml"] demo_config
    PromptAnswer.yes poetry_manager "poetry shell" rfl rfl rfl (by decide)

/-- Counterexample to C2 as stated: the base command list held in the
configuration is changed by the composition step, and a second invocation
over the carried configuration produces a different Command Plan. -/
theorem compose_not_idempotent_cex :
    demo_config.custom_commands = ["pip freeze"]
    ∧ (check_dependency_manager ["pyproject.toml"] demo_config
          PromptAnswer.yes).config.custom_commands
        = ["poetry shell", "pip freeze"]
    ∧ (check_dependency_manager ["pyproject.toml"]
          ((check_dependency_manager ["pyproject.toml"] demo_config
            PromptAnswer.yes).config)
          PromptAnswer.yes).config.custom_commands
        = ["poetry shell", "poetry shell", "pip freeze"]
    ∧ (["poetry shell", "poetry shell", "pip freeze"] : List String)
        ≠ ["poetry shell", "pip freeze"] := by
  exact ⟨rfl, rfl, rfl, by decide⟩

/-- C3 (amended): cancelling at the selection prompt, the fuzzy-search
prompt, or the env-activation question terminates the process immediately,
but with exit code 0 — the same status a successful run produces — not a
distinct non-zero code. -/
theorem cancellation_exit_zero : ∀ (choices dirs content : List String)
    (cfg : Config) (m : Manager),
    ask_for_subproject_from_choices choices none
        = Except.error (RunError.exitWith 0)
    ∧ find_project_by_name dirs none = Except.error (RunError.exitWith 0)
    ∧ (find_manager cfg.dependency_managers content = some m →
        cfg.automatically_run_commands_in_env = false →
        cfg.ask_for_env_activation = true →
        (check_dependency_manager content cfg
            PromptAnswer.cancelled).exitCode = some 0) := by
  intro choices dirs content cfg m
  refine ⟨rfl, rfl, fun hf hauto hask => ?_⟩
  simp [check_dependency_manager, hf, hauto, hask]

/-- Witness for C3 (amended): all three cancellation sites at concrete
inputs exit with status 0. -/
theorem cancellation_exit_zero_witness :
    ask_for_subproject_from_choices ["api", "web"] none
        = Except.error (RunError.exitWith 0)
    ∧ find_project_by_name ["/h/p"] none
        = Except.error (RunError.exitWith 0)
    ∧ (check_dependency_manager ["pyproject.toml"] ask_config
          PromptAnswer.cancelled).exitCode = some 0 := by
  obtain ⟨h1, h2, h3⟩ := cancellation_exit_zero ["api", "web"] ["/h/p"]
    ["pyproject.toml"] ask_config poetry_manager
  exact ⟨h1, h2, h3 rfl rfl rfl⟩

/-- Counterexample to C3 as stated: a cancellation at the env-activation
question exits with code 0 (`exit(0)` in the source), which is not a
distinct non-zero code — it equals the status of a successful run. -/
theorem cancellation_exit_cex :
    (check_dependency_manager ["pyproject.toml"] ask_config
        PromptAnswer.cancelled).exitCode = some 0
    ∧ ask_for_subproject_from_choices ["api", "web"] none
        = Except.error (RunError.exitWith 0) := by
  exact ⟨rfl, rfl⟩

/-! ### The directory walk: pruning, termination, no revisits -/

/-- The root is always the first entry the walk yields. -/
theorem walkVisit_root_mem (cfg : Config) (root : String) (t : FsTree) :
    root ∈ walkVisit cfg root t := by
  cases t with
  | node n subs syms =>
    rw [walkVisit]
    exact List.mem_cons_self _ _

mutual

/-- The unpruned path list of a tree has exactly one entry per real
directory. -/
theorem allRealPaths_length (root : String) (t : FsTree) :
    (allRealPaths root t).length = t.size := by
  cases t with
  | node n subs syms =>
    rw [allRealPaths, FsTree.size, List.length_cons,
      allRealChildren_length root subs, Nat.add_comm]

/-- Forest version of `allRealPaths_length`. -/
theorem allRealChildren_length (root : String) (ts : List FsTree) :
    (allRealChildren root ts).length = sizeForest ts := by
  cases ts with
  | nil => rfl
  | cons c rest =>
    rw [allRealChildren, sizeForest, List.length_append,
      allRealPaths_length _ c, allRealChildren_length root rest]

end

mutual

/-- The pruned walk yields a sublist of the unpruned real-directory paths:
pruning only removes entries, and symlinks never contribute entries. -/
theorem walkVisit_sublist (cfg : Config) (root : String) (t : FsTree) :
    (walkVisit cfg root t).Sublist (allRealPaths root t) := by
  cases t with
  | node n subs syms =>
    rw [walkVisit, allRealPaths]
    exact List.Sublist.cons₂ root (walkChildren_sublist cfg root _ subs)

/-- Forest version of `walkVisit_sublist`. -/
theorem walkChildren_sublist (cfg : Config) (root : String)
    (kept : List String) (ts : List FsTree) :
    (walkChildren cfg root kept ts).Sublist (allRealChildren root ts) := by
  cases ts with
  | nil => exact List.Sublist.refl []
  | cons c rest =>
    rw [walkChildren, allRealChildren]
    refine List.Sublist.append ?_ (walkChildren_sublist cfg root kept rest)
    by_cases h : c.name ∈ kept
    · rw [if_pos h]
      exact walkVisit_sublist cfg (os_path_join root c.name) c
    · rw [if_neg h]
      exact List.nil_sublist _

end

mutual

/-- Every directory the pruned walk yields is the root extended by a chain
of directory names, every one of which passes the exclusion filter. -/
theorem walkVisit_chain (cfg : Config) (root : String) (t : FsTree)
    (d : String) (hd : d ∈ walkVisit cfg root t) :
    ∃ names : List String, d = names.foldl os_path_join root
      ∧ ∀ n ∈ names, should_keep cfg n = true := by
  cases t with
  | node nm subs syms =>
    rw [walkVisit] at hd
    rcases List.mem_cons.mp hd with h | h
    · exact ⟨[], h, by simp⟩
    · exact walkChildren_chain cfg root _
        (fun n hn => (List.mem_filter.mp hn).2) subs d h

/-- Forest version of `walkVisit_chain`: every name the walk may descend
into passes the filter. -/
theorem walkChildren_chain (cfg : Config) (root : String)
    (kept : List String) (hkept : ∀ n ∈ kept, should_keep cfg n = true)
    (ts : List FsTree) (d : String)
    (hd : d ∈ walkChildren cfg root kept ts) :
    ∃ names : List String, d = names.foldl os_path_join root
      ∧ ∀ n ∈ names, should_keep cfg n = true := by
  cases ts with
  | nil => simp [walkChildren] at hd
  | cons c rest =>
    rw [walkChildren] at hd
    rcases List.mem_append.mp hd with h | h
    · by_cases hk : c.name ∈ kept
      · rw [if_pos hk] at h
        obtain ⟨names, hEq, hAll⟩ :=
          walkVisit_chain cfg (os_path_join root c.name) c d h
        refine ⟨c.name :: names, by simpa [List.foldl_cons] using hEq, ?_⟩
        intro n hn
        rcases List.mem_cons.mp hn with rfl | hn
        · exact hkept c.name hk
        · exact hAll n hn
      · rw [if_neg hk] at h
        simp at h
    · exact walkChildren_chain cfg root kept hkept rest d h

end

/-- C5 (amended): every directory the fuzzy-search indexing yields is a
configured root path extended by a chain of directory names that all pass
the exclusion filter — so no non-root entry has an excluded leaf name and no
descendant of an excluded directory is yielded; the configured root paths
themselves, however, are always yielded, whatever their own names. -/
theorem indexer_prunes_excluded : ∀ (cfg : Config)
    (roots : List (String × FsTree)),
    (∀ d ∈ get_possible_project_directories cfg roots,
      ∃ r ∈ roots, ∃ names : List String,
        d = names.foldl os_path_join r.1
        ∧ ∀ n ∈ names, should_keep cfg n = true)
    ∧ (∀ r ∈ roots, r.1 ∈ get_possible_project_directories cfg roots) := by
  intro cfg roots
  induction roots with
  | nil =>
    refine ⟨fun d hd => ?_, fun r hr => by simp at hr⟩
    simp [get_possible_project_directories] at hd
  | cons r0 rest ih =>
    constructor
    · intro d hd
      rw [get_possible_project_directories] at hd
      rcases List.mem_append.mp hd with h | h
      · obtain ⟨names, hEq, hAll⟩ := walkVisit_chain cfg r0.1 r0.2 d h
        exact ⟨r0, List.mem_cons_self r0 rest, names, hEq, hAll⟩
      · obtain ⟨r, hr, names, hEq, hAll⟩ := ih.1 d h
        exact ⟨r, List.mem_cons_of_mem r0 hr, names, hEq, hAll⟩
    · intro r hr
      rw [get_possible_project_directories]
      rcases List.mem_cons.mp hr with rfl | hr
      · exact List.mem_append.mpr (Or.inl (walkVisit_root_mem cfg r.1 r.2))
      · exact List.mem_append.mpr (Or.inr (ih.2 r hr))

/-- Witness for C5 (amended): in a walk of `/home` containing `proj` and an
excluded `node_modules`, the yielded entry `/home/proj` is the root extended
by the kept chain `["proj"]`. -/
theorem indexer_prunes_excluded_witness :
    ∃ r ∈ [("/home", demo_tree)], ∃ names : List String,
      "/home/proj" = names.foldl os_path_join r.1
      ∧ ∀ n ∈ names, should_keep exclude_config n = true :=
  (indexer_prunes_excluded exclude_config [("/home", demo_tree)]).1
    "/home/proj" (by decide)

/-- Counterexample to C5 as stated: with the exact-exclusion set
`["node_modules"]` and the configured root path `/home/node_modules`, the
indexing still yields `/home/node_modules`, a directory whose leaf name is
in the exclusion set — the root of each walk is appended before any
filtering applies. -/
theorem root_excluded_cex :
    get_possible_project_directories exclude_config
        [("/home/node_modules", FsTree.node "node_modules" [] [])]
      = ["/home/node_modules"]
    ∧ (os_path_split "/home/node_modules").2 = "node_modules"
    ∧ "node_modules" ∈ exclude_config.exclude_dirs := by
  exact ⟨rfl, rfl, by decide⟩

/-- C6 (confirmed): on every directory tree — symlink entries with cyclic
targets included — the walk visits at most one entry per real directory
(its yield is bounded by the number of real directories, so traversal is
finite), and when the real directories have pairwise-distinct paths no path
is ever visited twice: symlinks are never followed (`os.walk` defaults to
`followlinks=False`), so a cycle through a symlink cannot re-enter a visited
directory. -/
theorem walk_terminates_no_revisit : ∀ (cfg : Config) (root : String)
    (t : FsTree),
    (walkVisit cfg root t).length ≤ t.size
    ∧ ((allRealPaths root t).Nodup → (walkVisit cfg root t).Nodup) :=
  fun cfg root t =>
    ⟨le_of_le_of_eq (List.Sublist.length_le (walkVisit_sublist cfg root t))
        (allRealPaths_length root t),
     fun h => List.Nodup.sublist (walkVisit_sublist cfg root t) h⟩

/-- Witness for C6: a tree whose `b` subdirectory holds a symlink `up`
targeting its grandparent `/r/a` (a cycle on the real filesystem); the walk
still yields at most one entry per real directory and revisits nothing. -/
theorem walk_terminates_no_revisit_witness :
    (walkVisit exclude_config "/r" cyclic_tree).length ≤ cyclic_tree.size
    ∧ (walkVisit exclude_config "/r" cyclic_tree).Nodup := by
  obtain ⟨h1, h2⟩ :=
    walk_terminates_no_revisit exclude_config "/r" cyclic_tree
  exact ⟨h1, h2 (by decide)⟩

end ProjectLoader
